import Mathlib

/-!
Verification development for the `machine` crate: a compile-time DSL compiler
that turns a declarative state-machine description (states, messages, edges,
method projections) into generated dispatch code.

The development shallowly embeds:
* the data model and the method-projection code generator of `src/methods.rs`;
* the token-level parser of `src/methods.rs` (`impl Parse for Methods`,
  `impl Parse for Method`, `parse_method_sig`) over an explicit proc-macro
  token-tree type, mirroring syn's in-place cursor semantics (a failed
  composite parse leaves the tokens it consumed consumed);
* the semantics of the generated wrapper dispatch methods, as a small deep
  embedding of the generated `match` expressions plus an evaluator encoding
  Rust `match` semantics (first matching arm wins, variant patterns match
  only their own variant, `_` matches everything);
* the transition-dispatch generator of `src/transitions.rs`, which is not
  shipped under `src/` and is therefore modelled from the spec (§4.3, §9).
-/

namespace Machine

/-- A delimiter of a proc-macro token group (`(...)`, `[...]`, `{...}`). -/
inductive Delim where
  | paren
  | bracket
  | brace
deriving DecidableEq, Repr

/-- A proc-macro token tree: identifiers (keywords included, as in Rust's
proc-macro token model), punctuation (joined punctuation such as `=>` is one
token), literals, and delimited groups. -/
inductive Tok where
  | ident (s : String)
  | punct (s : String)
  | lit (s : String)
  | group (d : Delim) (inner : List Tok)

/-- Embeds `syn::Expr` as an opaque bag of the tokens it was parsed from; the
generator only splices expressions back verbatim, so no more structure is
needed. -/
structure Expr where
  toks : List Tok

/-- Embeds the Rust types the generator mentions: named types, `&T`,
`&mut T` and `Option<T>`. -/
inductive RType where
  | named (s : String)
  | ref (t : RType)
  | refMut (t : RType)
  | option (t : RType)
deriving DecidableEq, Repr

/-- Embeds `syn::FnArg`: receivers and captured `pat : ty` arguments. -/
inductive FnArg where
  | selfRef
  | selfRefMut
  | selfVal
  | captured (pat : String) (ty : RType)
deriving DecidableEq, Repr

/-- Embeds `syn::MethodSig` restricted to the fields `methods.rs` reads and
`parse_method_sig` fills: the `const`/`unsafe`/`async` qualifiers, the
optional ABI, the name, the argument list and the return type
(`Option.none` = `ReturnType::Default`, i.e. no `-> T` clause). -/
structure MethodSig where
  hasConstKw : Bool
  hasUnsafeKw : Bool
  hasAsyncKw : Bool
  abi : Option (Option String)
  ident : String
  inputs : List FnArg
  output : Option RType
deriving DecidableEq, Repr

/-- Embeds `MethodType` from `src/methods.rs`. -/
inductive MethodType where
  | get (field : String) (ty : RType)
  | set (field : String) (ty : RType)
  | fn (sig : MethodSig)
deriving DecidableEq, Repr

/-- Embeds `DefaultValue` from `src/methods.rs`. -/
inductive DefaultValue where
  | none
  | default
  | val (e : Expr)

/-- Embeds `DefaultValue::is_default` from `src/methods.rs`. -/
def DefaultValue.is_default : DefaultValue → Bool
  | DefaultValue.none => false
  | _ => true

/-- Embeds `Method` from `src/methods.rs`: state list, method kind,
fallback policy. -/
structure Method where
  states : List String
  method_type : MethodType
  default : DefaultValue

/-- Embeds `Methods` from `src/methods.rs`: the machine name and the parsed
method entries of a `methods!` block. -/
structure Methods where
  machine_name : String
  methods : List Method

/-! ### Deep embedding of the generated wrapper `match` expressions

`generate_getter`, `generate_setter` and `generate_fn` each emit one wrapper
method on the enclosing union consisting of a `match self` with one arm per
covered state plus a final `_` arm.  We embed the generated method as its
name, its declared return type (`Option.none` when the generated signature
carries no `-> T`), and its list of match arms in emission order. -/

/-- A pattern of a generated match arm: `#machine_name::#state(ref v)`
(a variant pattern of the enclosing union) or the wildcard `_`. -/
inductive Pat where
  | variant (machine : String) (state : String)
  | wild
deriving DecidableEq, Repr

/-- The right-hand side of a generated wrapper match arm:
`Some(v.m(args))`, `v.m(args)`, `None`, `std::default::Default::default()`,
or a spliced literal expression. -/
inductive WRhs where
  | someCall (args : List String)
  | plainCall (args : List String)
  | noneE
  | defaultE
  | exprE (e : Expr)

/-- A generated wrapper method: name, declared return type (`Option.none`
when no return type is declared), and match arms in emission order. -/
structure GenMethod where
  name : String
  output : Option RType
  arms : List (Pat × WRhs)

/-- Embeds the argument-forwarding computation of `Methods::generate_fn`
(src/methods.rs:344-359): keep exactly the `FnArg::Captured` arguments'
patterns, dropping receivers. -/
def argsOf (signature : MethodSig) : List String :=
  signature.inputs.filterMap (fun arg =>
    match arg with
    | FnArg.captured p _ => some p
    | _ => Option.none)

/-- Embeds `Methods::generate_getter` (src/methods.rs:274-302): the wrapper
is named after the field, returns `Option<&ty>`, and has one
`#machine_name::#state(ref v) => Some(v.#ident())` arm per state of the spec
(in order) followed by `_ => None`.  Note the method's `default` field is
never read. -/
def Methods.generate_getter (machine_name : String) (method : Method)
    (ident : String) (ty : RType) : GenMethod :=
  { name := ident
    output := some (RType.option (RType.ref ty))
    arms := method.states.map (fun s => (Pat.variant machine_name s, WRhs.someCall []))
      ++ [(Pat.wild, WRhs.noneE)] }

/-- Embeds `Methods::generate_setter` (src/methods.rs:304-334): the wrapper
is named `#ident_mut`, returns `Option<&mut ty>`, and has one
`#machine_name::#state(ref mut v) => Some(v.#ident_mut())` arm per state
followed by `_ => None`.  The method's `default` field is never read. -/
def Methods.generate_setter (machine_name : String) (method : Method)
    (ident : String) (ty : RType) : GenMethod :=
  { name := ident ++ "_mut"
    output := some (RType.option (RType.refMut ty))
    arms := method.states.map (fun s => (Pat.variant machine_name s, WRhs.someCall []))
      ++ [(Pat.wild, WRhs.noneE)] }

/-- Embeds `Methods::generate_fn` (src/methods.rs:336-426): per covered state
one arm calling the state's method — bare call when `default.is_default()`,
`Some(call)` otherwise; declared return type kept as-is (or wrapped in
`Option<_>` when the policy is `None`), absent when the signature declares
none; final arm `_ => None` / `_ => std::default::Default::default()` /
`_ => expr` according to the `DefaultValue`. -/
def Methods.generate_fn (machine_name : String) (method : Method)
    (signature : MethodSig) : GenMethod :=
  let args := argsOf signature
  let variants := method.states.map (fun s =>
    if method.default.is_default then (Pat.variant machine_name s, WRhs.plainCall args)
    else (Pat.variant machine_name s, WRhs.someCall args))
  let output := match signature.output with
    | Option.none => Option.none
    | some ty => if method.default.is_default then some ty else some (RType.option ty)
  let lastRhs := match method.default with
    | DefaultValue.none => WRhs.noneE
    | DefaultValue.default => WRhs.defaultE
    | DefaultValue.val e => WRhs.exprE e
  { name := signature.ident
    output := output
    arms := variants ++ [(Pat.wild, lastRhs)] }

/-- Embeds the per-method dispatch of `Methods::generate_impl`
(src/methods.rs:252-272): `Get` goes to `generate_getter`, `Set` to
`generate_setter`, `Fn` to `generate_fn`. -/
def Methods.generate_wrapper (machine_name : String) (method : Method) : GenMethod :=
  match method.method_type with
  | MethodType.get ident ty => Methods.generate_getter machine_name method ident ty
  | MethodType.set ident ty => Methods.generate_setter machine_name method ident ty
  | MethodType.fn signature => Methods.generate_fn machine_name method signature

/-! ### Semantics of the generated match expressions

A runtime value of the generated union is either the payload-free `Error`
sink variant or a named state variant carrying a payload. -/

/-- A runtime value of the generated tagged union: the implicit payload-free
`Error` sink variant, or a state variant with its payload. -/
inductive MValue (V : Type) where
  | error
  | state (name : String) (payload : V)
deriving DecidableEq, Repr

/-- Rust `match` pattern semantics: a variant pattern
`#machine::#state(binder)` matches exactly the values of that state variant
(never the payload-free `Error`), and `_` matches everything. -/
def Pat.matches {V : Type} : Pat → MValue V → Bool
  | Pat.variant _ n, MValue.state s _ => n == s
  | Pat.variant _ _, MValue.error => false
  | Pat.wild, _ => true

/-- Result domain of a generated wrapper body: `Some(r)`, `None`, a bare
value, or the type's canonical default value
(`std::default::Default::default()`). -/
inductive RVal (R : Type) where
  | someV (r : R)
  | noneV
  | plainV (r : R)
  | defaultV
deriving DecidableEq, Repr

/-- Evaluates one generated arm body.  `call s p args` is the result of the
per-state method call `v.m(args)` on payload `p` of state `s` (for getter
wrappers this is the generated per-state accessor, i.e. the field itself);
`evalExpr` evaluates a spliced fallback expression.  The `someCall`/
`plainCall` bodies are only ever reached through a matching variant pattern,
so their `MValue.error` case is arbitrary (we pick `noneV`). -/
def evalWRhs {V R : Type} (call : String → V → List String → R)
    (evalExpr : Expr → R) : WRhs → MValue V → RVal R
  | WRhs.someCall args, MValue.state s p => RVal.someV (call s p args)
  | WRhs.someCall _, MValue.error => RVal.noneV
  | WRhs.plainCall args, MValue.state s p => RVal.plainV (call s p args)
  | WRhs.plainCall _, MValue.error => RVal.noneV
  | WRhs.noneE, _ => RVal.noneV
  | WRhs.defaultE, _ => RVal.defaultV
  | WRhs.exprE e, _ => RVal.plainV (evalExpr e)

/-- Rust `match` semantics over a generated arm list: the first arm whose
pattern matches is taken.  Generated arm lists always end with a `_` arm, so
the `[]` case is unreachable; we pick `noneV`. -/
def evalArms {V R : Type} (call : String → V → List String → R)
    (evalExpr : Expr → R) : List (Pat × WRhs) → MValue V → RVal R
  | [], _ => RVal.noneV
  | (pat, rhs) :: rest, m =>
      if pat.matches m then evalWRhs call evalExpr rhs m
      else evalArms call evalExpr rest m

/-! ### Transition dispatch codegen, modelled from the spec

`src/transitions.rs` is declared in `src/lib.rs` (`mod transitions;`) but its
source is not shipped under `src/`; the definitions below are therefore
modelled from spec §3, §4.3 and §9 and from the generated-code examples in
the `src/lib.rs` documentation. -/

/-- Modelled from the spec: `src/transitions.rs` is missing from `src/`.
An `Edge` is a declared transition rule `(source State, Message, ordered
non-empty list of target States)` (spec §3). -/
structure Edge where
  source : String
  message : String
  targets : List String

/-- Modelled from the spec: `src/transitions.rs` is missing from `src/`.
A parsed `transitions!` block: machine name plus edge list in declaration
order (spec §3, §4.3). -/
structure Transitions where
  machine_name : String
  edges : List Edge

/-- The right-hand side of a generated transition-dispatch match arm:
`#machine::#target(state.on_msg(input))` for a single-target edge,
`state.on_msg(input)` forwarded unmodified for a multi-target edge, and
`#machine::Error` for the final wildcard arm. -/
inductive TRhs where
  | wrapSingle (target : String)
  | forward
  | errorRhs
deriving DecidableEq, Repr

/-- Modelled from the spec: `src/transitions.rs` is missing from `src/`.
The arms of the generated `on_<message>` dispatch method (spec §4.3 and the
`Traffic::on_advance`/`Traffic::on_pass_car` examples in `src/lib.rs`
documentation): one variant-pattern arm per declared edge whose message
matches, in declaration order — wrapping the per-state transition function's
result in the single target variant for a singleton target list, forwarding
the returned union value unmodified otherwise — followed by the catch-all
`_ => #machine::Error` arm. -/
def generateDispatchArms (machine_name : String) (edges : List Edge)
    (msg : String) : List (Pat × TRhs) :=
  (edges.filterMap (fun e =>
    if e.message == msg then
      some (Pat.variant machine_name e.source,
        match e.targets with
        | [t] => TRhs.wrapSingle t
        | _ => TRhs.forward)
    else Option.none)) ++ [(Pat.wild, TRhs.errorRhs)]

/-- Evaluates one generated transition arm body.  `singleFn s p input`
models the per-state transition function `state.on_msg(input)` of a
single-target edge (it returns the new payload, wrapped by the generated arm
in the target variant); `multiFn s p input` models a multi-target per-state
transition function, which itself returns a fully-formed union value.  The
call bodies are only reachable through a matching variant pattern, so their
`MValue.error` case is arbitrary (we pick `error`). -/
def evalTRhs {V M : Type} (singleFn : String → V → M → V)
    (multiFn : String → V → M → MValue V) (input : M) : TRhs → MValue V → MValue V
  | TRhs.wrapSingle tgt, MValue.state s p => MValue.state tgt (singleFn s p input)
  | TRhs.wrapSingle _, MValue.error => MValue.error
  | TRhs.forward, MValue.state s p => multiFn s p input
  | TRhs.forward, MValue.error => MValue.error
  | TRhs.errorRhs, _ => MValue.error

/-- Rust `match` semantics over the generated transition arms: first arm
whose pattern matches wins.  Generated arm lists always end with the
wildcard `_ => Error` arm, so the `[]` case is unreachable; we pick
`error`. -/
def evalTMatch {V M : Type} (singleFn : String → V → M → V)
    (multiFn : String → V → M → MValue V) (input : M) :
    List (Pat × TRhs) → MValue V → MValue V
  | [], _ => MValue.error
  | (pat, rhs) :: rest, m =>
      if pat.matches m then evalTRhs singleFn multiFn input rhs m
      else evalTMatch singleFn multiFn input rest m

/-- First occurrences of a list's elements, in order of first appearance. -/
def firstOccurrences (l : List String) : List String :=
  l.foldl (fun acc x => if x ∈ acc then acc else acc ++ [x]) []

/-- Modelled from the spec: `src/transitions.rs` is missing from `src/`.
`Transitions::generate` groups the edges by message and emits one dispatch
method per message (spec §4.3).  Per spec §9 the source exhibits no guard
against duplicate `(state, message)` edges, so generation never reports a
specification conflict: the result is always `Except.ok`. -/
def Transitions.generate (t : Transitions) :
    Except String (List (String × List (Pat × TRhs))) :=
  Except.ok ((firstOccurrences (t.edges.map (fun e => e.message))).map
    (fun msg => (msg, generateDispatchArms t.machine_name t.edges msg)))

/-! ### Token-level parser of `src/methods.rs`

Each parsing function takes the remaining token list and returns a result
together with the new remaining list, mirroring syn's in-place cursor: a
failed primitive consumes nothing, while a failed composite parse leaves
consumed whatever it consumed before failing. -/

/-- The Rust keywords rejected by `syn::Ident`'s `Parse` implementation
(contextual keywords such as `default` and `union` are accepted). -/
def rustKeyword (s : String) : Bool :=
  s == "_" || s == "abstract" || s == "as" || s == "async" || s == "await" ||
  s == "become" || s == "box" || s == "break" || s == "const" ||
  s == "continue" || s == "crate" || s == "do" || s == "dyn" || s == "else" ||
  s == "enum" || s == "extern" || s == "false" || s == "final" || s == "fn" ||
  s == "for" || s == "if" || s == "impl" || s == "in" || s == "let" ||
  s == "loop" || s == "macro" || s == "match" || s == "mod" || s == "move" ||
  s == "mut" || s == "override" || s == "priv" || s == "pub" || s == "ref" ||
  s == "return" || s == "Self" || s == "self" || s == "static" ||
  s == "struct" || s == "super" || s == "trait" || s == "true" || s == "try" ||
  s == "type" || s == "typeof" || s == "unsized" || s == "use" ||
  s == "virtual" || s == "where" || s == "while" || s == "yield"

/-- Embeds `input.parse::<Ident>()`: consumes one non-keyword identifier
token; fails consuming nothing otherwise. -/
def parseIdent : List Tok → Except String String × List Tok
  | Tok.ident s :: rest =>
      if rustKeyword s then (Except.error "expected identifier", Tok.ident s :: rest)
      else (Except.ok s, rest)
  | toks => (Except.error "expected identifier", toks)

/-- Embeds parsing a fixed punctuation token such as `Token![,]`,
`Token![:]` or `Token![=>]`: consumes it on match, fails consuming nothing
otherwise. -/
def parsePunct (p : String) : List Tok → Except String Unit × List Tok
  | Tok.punct q :: rest =>
      if q == p then (Except.ok (), rest)
      else (Except.error ("expected `" ++ p ++ "`"), Tok.punct q :: rest)
  | toks => (Except.error ("expected `" ++ p ++ "`"), toks)

/-- Embeds parsing a fixed keyword token such as `Token![fn]` (keywords are
identifier tokens at the proc-macro level). -/
def parseKw (kw : String) : List Tok → Except String Unit × List Tok
  | Tok.ident s :: rest =>
      if s == kw then (Except.ok (), rest)
      else (Except.error ("expected `" ++ kw ++ "`"), Tok.ident s :: rest)
  | toks => (Except.error ("expected `" ++ kw ++ "`"), toks)

/-- Embeds parsing an `Option<Token![kw]>`: consumes the keyword identifier
when present, never fails. -/
def parseOptKw (kw : String) : List Tok → Bool × List Tok
  | Tok.ident s :: rest =>
      if s == kw then (true, rest) else (false, Tok.ident s :: rest)
  | toks => (false, toks)

/-- Embeds `parenthesized!` / `bracketed!`: consumes one group token with the
requested delimiter and exposes its content; fails consuming nothing
otherwise. -/
def parseGroup (d : Delim) : List Tok → Except String (List Tok) × List Tok
  | Tok.group d2 inner :: rest =>
      if d2 == d then (Except.ok inner, rest)
      else (Except.error "expected delimiter", Tok.group d2 inner :: rest)
  | toks => (Except.error "expected delimiter", toks)

/-- Embeds `stream.parse::<Expr>()` inside `ParenVal`: any non-empty token
sequence parses as an (opaque) expression consuming the whole inner stream;
an empty stream is "expected expression".  Model boundary: ill-formed
non-empty expressions are not distinguished, which is enough because the
generator splices parsed expressions back verbatim. -/
def parseExprAll (toks : List Tok) : Except String Expr :=
  match toks with
  | [] => Except.error "expected expression"
  | _ => Except.ok (Expr.mk toks)

/-- Embeds `impl Parse for ParenVal` (src/methods.rs:50-57): consume a
parenthesized group, then parse its content as an expression.  Mirroring
syn's cursor, a missing group fails consuming nothing, while a group whose
content fails to parse as an expression has already been consumed. -/
def parseParenVal (toks : List Tok) : Except String Expr × List Tok :=
  match parseGroup Delim.paren toks with
  | (Except.error e, r) => (Except.error e, r)
  | (Except.ok inner, r) =>
      match parseExprAll inner with
      | Except.error e => (Except.error e, r)
      | Except.ok ex => (Except.ok ex, r)

/-- Embeds `input.parse::<Type>()` restricted to the type shapes the DSL
uses: a named type, `&ty` or `&mut ty`.  Model boundary: other `syn::Type`
shapes are not modelled and fail. -/
def parseType : List Tok → Except String RType × List Tok
  | Tok.punct p :: Tok.ident m :: Tok.ident s :: rest =>
      if p == "&" && m == "mut" && !rustKeyword s then
        (Except.ok (RType.refMut (RType.named s)), rest)
      else if p == "&" && !rustKeyword m then
        (Except.ok (RType.ref (RType.named m)), Tok.ident s :: rest)
      else (Except.error "expected type", Tok.punct p :: Tok.ident m :: Tok.ident s :: rest)
  | Tok.punct p :: Tok.ident m :: rest =>
      if p == "&" && !rustKeyword m then
        (Except.ok (RType.ref (RType.named m)), rest)
      else (Except.error "expected type", Tok.punct p :: Tok.ident m :: rest)
  | Tok.ident s :: rest =>
      if rustKeyword s then (Except.error "expected type", Tok.ident s :: rest)
      else (Except.ok (RType.named s), rest)
  | toks => (Except.error "expected type", toks)

/-- Embeds `content.parse_terminated(Ident::parse)` on a bracketed state
list: a possibly empty comma-separated identifier list with optional
trailing comma, consuming the entire content. -/
def parseTerminatedIdents : List Tok → Except String (List String)
  | [] => Except.ok []
  | Tok.ident s :: rest =>
      if rustKeyword s then Except.error "expected identifier"
      else
        match rest with
        | [] => Except.ok [s]
        | Tok.punct p :: rest2 =>
            if p == "," then
              match parseTerminatedIdents rest2 with
              | Except.ok l => Except.ok (s :: l)
              | Except.error e => Except.error e
            else Except.error "expected `,`"
        | _ => Except.error "expected `,`"
  | _ => Except.error "expected identifier"

/-- Embeds `FnArg::parse`: `&self`, `&mut self`, `self`, or a captured
`pat : ty` argument. -/
def parseFnArg : List Tok → Except String FnArg × List Tok
  | Tok.punct p :: Tok.ident m :: Tok.ident s :: rest =>
      if p == "&" && m == "mut" && s == "self" then (Except.ok FnArg.selfRefMut, rest)
      else if p == "&" && m == "self" then (Except.ok FnArg.selfRef, Tok.ident s :: rest)
      else (Except.error "expected function argument",
        Tok.punct p :: Tok.ident m :: Tok.ident s :: rest)
  | Tok.punct p :: Tok.ident m :: rest =>
      if p == "&" && m == "self" then (Except.ok FnArg.selfRef, rest)
      else (Except.error "expected function argument", Tok.punct p :: Tok.ident m :: rest)
  | Tok.ident s :: rest =>
      if s == "self" then (Except.ok FnArg.selfVal, rest)
      else if rustKeyword s then
        (Except.error "expected function argument", Tok.ident s :: rest)
      else
        match rest with
        | Tok.punct c :: rest2 =>
            if c == ":" then
              match parseType rest2 with
              | (Except.ok ty, r) => (Except.ok (FnArg.captured s ty), r)
              | (Except.error e, r) => (Except.error e, r)
            else (Except.error "expected `:`", Tok.ident s :: Tok.punct c :: rest2)
        | r => (Except.error "expected `:`", Tok.ident s :: r)
  | toks => (Except.error "expected function argument", toks)

/-- Embeds `content.parse_terminated(FnArg::parse)` on the parenthesized
argument list: possibly empty, comma separated, optional trailing comma,
consuming the whole content.  `fuel` bounds the recursion; each iteration
consumes at least one token, so `toks.length + 1` is always enough. -/
def parseTerminatedFnArgs : Nat → List Tok → Except String (List FnArg)
  | _, [] => Except.ok []
  | 0, _ => Except.error "expected function argument"
  | fuel + 1, toks =>
      match parseFnArg toks with
      | (Except.error e, _) => Except.error e
      | (Except.ok a, rest) =>
          match rest with
          | [] => Except.ok [a]
          | Tok.punct p :: rest2 =>
              if p == "," then
                match parseTerminatedFnArgs fuel rest2 with
                | Except.ok l => Except.ok (a :: l)
                | Except.error e => Except.error e
              else Except.error "expected `,`"
          | _ => Except.error "expected `,`"

/-- Embeds `ReturnType::parse`: `-> ty` when the arrow is present, otherwise
`ReturnType::Default` consuming nothing. -/
def parseReturnType : List Tok → Except String (Option RType) × List Tok
  | Tok.punct p :: rest =>
      if p == "->" then
        match parseType rest with
        | (Except.ok ty, r) => (Except.ok (some ty), r)
        | (Except.error e, r) => (Except.error e, r)
      else (Except.ok Option.none, Tok.punct p :: rest)
  | toks => (Except.ok Option.none, toks)

/-- Embeds the `Option<Abi>` parse: `extern` optionally followed by a string
literal naming the ABI; absent when the next token is not `extern`. -/
def parseOptAbi : List Tok → Option (Option String) × List Tok
  | Tok.ident s :: Tok.lit n :: rest =>
      if s == "extern" then (some (some n), rest)
      else (Option.none, Tok.ident s :: Tok.lit n :: rest)
  | Tok.ident s :: rest =>
      if s == "extern" then (some Option.none, rest)
      else (Option.none, Tok.ident s :: rest)
  | toks => (Option.none, toks)

/-- Embeds `parse_method_sig` (src/methods.rs:144-179): optional
`const`/`unsafe`/`async`/ABI qualifiers, the `fn` keyword, the name, the
generic parameters, the parenthesized argument list, the return type, the
optional where clause.  Model boundary: generic parameters and where clauses
are modelled only in their absent form and fail when present (no claim
involves them). -/
def parse_method_sig (toks : List Tok) : Except String MethodSig × List Tok :=
  let (hasConstKw, t1) := parseOptKw "const" toks
  let (hasUnsafeKw, t2) := parseOptKw "unsafe" t1
  let (hasAsyncKw, t3) := parseOptKw "async" t2
  let (abi, t4) := parseOptAbi t3
  match parseKw "fn" t4 with
  | (Except.error e, r) => (Except.error e, r)
  | (Except.ok _, t5) =>
  match parseIdent t5 with
  | (Except.error e, r) => (Except.error e, r)
  | (Except.ok name, t6) =>
  match t6 with
  | Tok.punct lt :: r =>
      if lt == "<" then (Except.error "generic parameters exceed the model", Tok.punct lt :: r)
      else (Except.error "expected `(`", Tok.punct lt :: r)
  | _ =>
  match parseGroup Delim.paren t6 with
  | (Except.error e, r) => (Except.error e, r)
  | (Except.ok inner, t7) =>
  match parseTerminatedFnArgs (inner.length + 1) inner with
  | Except.error e => (Except.error e, t7)
  | Except.ok inputs =>
  match parseReturnType t7 with
  | (Except.error e, r) => (Except.error e, r)
  | (Except.ok output, t8) =>
  match t8 with
  | Tok.ident w :: r =>
      if w == "where" then
        (Except.error "where clauses exceed the model", Tok.ident w :: r)
      else (Except.ok (MethodSig.mk hasConstKw hasUnsafeKw hasAsyncKw abi name inputs output),
        Tok.ident w :: r)
  | t9 => (Except.ok (MethodSig.mk hasConstKw hasUnsafeKw hasAsyncKw abi name inputs output), t9)

/-- Embeds the fallback-clause parse of `impl Parse for Method`
(src/methods.rs:108-116): an `Option<Token![default]>`, then — only when the
keyword was present — a speculative `ParenVal` parse: `Ok` gives
`DefaultValue::Val`, `Err` gives `DefaultValue::Default`; an absent keyword
gives `DefaultValue::None`.  This parse never fails. -/
def parseDefaultValue (toks : List Tok) : DefaultValue × List Tok :=
  match parseOptKw "default" toks with
  | (false, r) => (DefaultValue.none, r)
  | (true, r) =>
      match parseParenVal r with
      | (Except.ok e, r2) => (DefaultValue.val e, r2)
      | (Except.error _, r2) => (DefaultValue.default, r2)

/-- Embeds the method-kind parse of `impl Parse for Method`
(src/methods.rs:118-134): try `parse_method_sig` first; on failure, continue
from wherever the failed signature attempt left the cursor and parse the
`get`/`set` shorthand `Ident Ident : Type`, rejecting a head identifier
other than `get` or `set` with the error "expected `get` or `set`". -/
def parseMethodType (toks : List Tok) : Except String MethodType × List Tok :=
  match parse_method_sig toks with
  | (Except.ok f, r) => (Except.ok (MethodType.fn f), r)
  | (Except.error _, r0) =>
  match parseIdent r0 with
  | (Except.error e, r) => (Except.error e, r)
  | (Except.ok i, r1) =>
  match parseIdent r1 with
  | (Except.error e, r) => (Except.error e, r)
  | (Except.ok name, r2) =>
  match parsePunct ":" r2 with
  | (Except.error e, r) => (Except.error e, r)
  | (Except.ok _, r3) =>
  match parseType r3 with
  | (Except.error e, r) => (Except.error e, r)
  | (Except.ok ty, r4) =>
      if i == "get" then (Except.ok (MethodType.get name ty), r4)
      else if i == "set" then (Except.ok (MethodType.set name ty), r4)
      else (Except.error "expected `get` or `set`", r4)

/-- Embeds the state-list parse of `impl Parse for Method`
(src/methods.rs:92-105): a single identifier gives a one-element list; when
that fails, a bracketed group whose content is parsed with
`parse_terminated(Ident::parse)` — which accepts the empty list. -/
def parseStateList (toks : List Tok) : Except String (List String) × List Tok :=
  match parseIdent toks with
  | (Except.ok i, r) => (Except.ok [i], r)
  | (Except.error _, _) =>
  match parseGroup Delim.bracket toks with
  | (Except.error e, r) => (Except.error e, r)
  | (Except.ok inner, r) =>
      match parseTerminatedIdents inner with
      | Except.error e => (Except.error e, r)
      | Except.ok states => (Except.ok states, r)

/-- Embeds `impl Parse for Method` (src/methods.rs:90-142): state list, the
`=>` token, the fallback clause, the method kind. -/
def parseMethod (toks : List Tok) : Except String Method × List Tok :=
  match parseStateList toks with
  | (Except.error e, r) => (Except.error e, r)
  | (Except.ok states, t1) =>
  match parsePunct "=>" t1 with
  | (Except.error e, r) => (Except.error e, r)
  | (Except.ok _, t2) =>
  let (dflt, t3) := parseDefaultValue t2
  match parseMethodType t3 with
  | (Except.error e, r) => (Except.error e, r)
  | (Except.ok mt, t4) => (Except.ok (Method.mk states mt dflt), t4)

/-- Embeds the entry loop of `impl Parse for Methods`
(src/methods.rs:72-81): while the lookahead sees a comma, consume it and
parse another `Method`.  `fuel` bounds the recursion; each iteration
consumes at least the comma, so `toks.length + 1` is always enough. -/
def parseMethodLoop : Nat → List Tok → Except String (List Method) × List Tok
  | 0, toks => (Except.error "expected `,`", toks)
  | fuel + 1, toks =>
      match toks with
      | Tok.punct p :: rest =>
          if p == "," then
            match parseMethod rest with
            | (Except.error e, r) => (Except.error e, r)
            | (Except.ok m, r) =>
                match parseMethodLoop fuel r with
                | (Except.ok ms, r2) => (Except.ok (m :: ms), r2)
                | (Except.error e, r2) => (Except.error e, r2)
          else (Except.ok [], Tok.punct p :: rest)
      | t => (Except.ok [], t)

/-- Embeds `impl Parse for Methods` (src/methods.rs:59-88): machine name,
comma, bracketed entry list (one mandatory `Method` then the comma loop).
Tokens of the bracketed content left unconsumed after the loop surface as
syn's "unexpected token" error when the macro input finishes parsing. -/
def parseMethods (toks : List Tok) : Except String Methods × List Tok :=
  match parseIdent toks with
  | (Except.error e, r) => (Except.error e, r)
  | (Except.ok machine_name, t1) =>
  match parsePunct "," t1 with
  | (Except.error e, r) => (Except.error e, r)
  | (Except.ok _, t2) =>
  match parseGroup Delim.bracket t2 with
  | (Except.error e, r) => (Except.error e, r)
  | (Except.ok content, t3) =>
  match parseMethod content with
  | (Except.error e, _) => (Except.error e, t3)
  | (Except.ok m1, c1) =>
  match parseMethodLoop (c1.length + 1) c1 with
  | (Except.error e, _) => (Except.error e, t3)
  | (Except.ok ms, c2) =>
      if c2.isEmpty then (Except.ok (Methods.mk machine_name (m1 :: ms)), t3)
      else (Except.error "unexpected token", t3)

/-- Embeds `parse_macro_input!(input as Methods)`: the whole macro input must
be consumed by a successful `Methods` parse. -/
def parseMethodsBlock (toks : List Tok) : Except String Methods :=
  match parseMethods toks with
  | (Except.error e, _) => Except.error e
  | (Except.ok m, rest) =>
      if rest.isEmpty then Except.ok m else Except.error "unexpected token"

/-- Head-of-stream test: does the token list start with the given keyword
identifier? -/
def isIdentHead (kw : String) : List Tok → Bool
  | Tok.ident s :: _ => s == kw
  | _ => false

/-- Head-of-stream test: does the token list start with a parenthesized
group? -/
def isParenHead : List Tok → Bool
  | Tok.group Delim.paren _ :: _ => true
  | _ => false

/-! ### Generic lemmas about the generated `match` evaluators -/

theorem evalTMatch_all_unmatched {V M : Type} (sF : String → V → M → V)
    (mF : String → V → M → MValue V) (input : M) (arms : List (Pat × TRhs))
    (m : MValue V) (h : ∀ pr ∈ arms, pr.1.matches m = false) :
    evalTMatch sF mF input (arms ++ [(Pat.wild, TRhs.errorRhs)]) m = MValue.error := by
  induction arms with
  | nil => simp [evalTMatch, Pat.matches, evalTRhs]
  | cons a rest ih =>
      have hp := h a (List.mem_cons_self a rest)
      have hrest : ∀ pr ∈ rest, pr.1.matches m = false :=
        fun pr hm => h pr (List.mem_cons_of_mem a hm)
      obtain ⟨pat, rhs⟩ := a
      simp only [List.cons_append, evalTMatch]
      rw [hp]
      simp only [Bool.false_eq_true, if_false]
      exact ih hrest

theorem dispatch_arm_patterns {machine : String} {edges : List Edge} {msg : String}
    {pr : Pat × TRhs}
    (h : pr ∈ edges.filterMap (fun e =>
      if e.message == msg then
        some (Pat.variant machine e.source,
          match e.targets with
          | [t] => TRhs.wrapSingle t
          | _ => TRhs.forward)
      else Option.none)) :
    ∃ e ∈ edges, e.message = msg ∧ pr.1 = Pat.variant machine e.source := by
  rcases List.mem_filterMap.mp h with ⟨e, he, hfe⟩
  split at hfe
  next hcond =>
      injection hfe with hfe
      exact ⟨e, he, by simpa using hcond, by rw [← hfe]⟩
  next hcond => simp at hfe

theorem evalArms_mapped_covered {V R : Type} (call : String → V → List String → R)
    (eE : Expr → R) (states : List String) (machine : String) (rhs last : WRhs)
    (s : String) (p : V) (h : s ∈ states) :
    evalArms call eE
      (states.map (fun st => (Pat.variant machine st, rhs)) ++ [(Pat.wild, last)])
      (MValue.state s p)
    = evalWRhs call eE rhs (MValue.state s p) := by
  induction states with
  | nil => cases h
  | cons a rest ih =>
      simp only [List.map_cons, List.cons_append, evalArms, Pat.matches]
      by_cases hab : a = s
      · simp [hab]
      · have hb : (a == s) = false := beq_eq_false_iff_ne.mpr hab
        simp only [hb, Bool.false_eq_true, if_false]
        refine ih ?_
        rcases List.mem_cons.mp h with h1 | h1
        · exact absurd h1.symm hab
        · exact h1

theorem evalArms_mapped_uncovered {V R : Type} (call : String → V → List String → R)
    (eE : Expr → R) (states : List String) (machine : String) (rhs last : WRhs)
    (s : String) (p : V) (h : s ∉ states) :
    evalArms call eE
      (states.map (fun st => (Pat.variant machine st, rhs)) ++ [(Pat.wild, last)])
      (MValue.state s p)
    = evalWRhs call eE last (MValue.state s p) := by
  induction states with
  | nil => simp [evalArms, Pat.matches]
  | cons a rest ih =>
      simp only [List.map_cons, List.cons_append, evalArms, Pat.matches]
      have hab : a ≠ s := fun he => h (he ▸ List.mem_cons_self a rest)
      have hb : (a == s) = false := beq_eq_false_iff_ne.mpr hab
      simp only [hb, Bool.false_eq_true, if_false]
      exact ih (fun hm => h (List.mem_cons_of_mem a hm))

theorem evalArms_mapped_error {V R : Type} (call : String → V → List String → R)
    (eE : Expr → R) (states : List String) (machine : String) (rhs last : WRhs) :
    evalArms call eE
      (states.map (fun st => (Pat.variant machine st, rhs)) ++ [(Pat.wild, last)])
      MValue.error
    = evalWRhs call eE last MValue.error := by
  induction states with
  | nil => simp [evalArms, Pat.matches]
  | cons a rest ih =>
      simp only [List.map_cons, List.cons_append, evalArms, Pat.matches]
      simpa using ih

/-! ### Claims about transition dispatch (C1, C2, C5) -/

/-- C1: for every generated state machine and every declared message, if the
union's active variant is the Error sink state, the generated dispatch
method for that message returns the Error variant — unconditionally,
independent of which edges are declared for that message.  (The transitions
generator is modelled from the spec, `src/transitions.rs` being absent from
`src/`: no variant-pattern arm of the generated `match` can match the
payload-free `Error` variant, so the catch-all `_ => Error` arm applies.) -/
theorem dispatch_from_error_yields_error {V M : Type}
    (singleFn : String → V → M → V) (multiFn : String → V → M → MValue V)
    (input : M) (machine : String) (edges : List Edge) (msg : String) :
    evalTMatch singleFn multiFn input (generateDispatchArms machine edges msg)
      MValue.error = MValue.error := by
  unfold generateDispatchArms
  apply evalTMatch_all_unmatched
  intro pr hpr
  rcases dispatch_arm_patterns hpr with ⟨e, _, _, hpat⟩
  rw [hpat]
  rfl

/-- C2: for every `(state, message)` pair with no declared edge, the
generated dispatch method for that message, applied to a union value whose
active variant is that state, returns the Error sink variant.  (Modelled
from the spec: only declared edges contribute variant-pattern arms, so an
undeclared pair falls through to the catch-all `_ => Error` arm.) -/
theorem dispatch_undeclared_pair_yields_error {V M : Type}
    (singleFn : String → V → M → V) (multiFn : String → V → M → MValue V)
    (input : M) (machine : String) (edges : List Edge) (msg s : String) (p : V)
    (h : ∀ e ∈ edges, ¬ (e.source = s ∧ e.message = msg)) :
    evalTMatch singleFn multiFn input (generateDispatchArms machine edges msg)
      (MValue.state s p) = MValue.error := by
  unfold generateDispatchArms
  apply evalTMatch_all_unmatched
  intro pr hpr
  rcases dispatch_arm_patterns hpr with ⟨e, he, hmsg, hpat⟩
  rw [hpat]
  simp only [Pat.matches]
  exact beq_eq_false_iff_ne.mpr (fun hes => h e he ⟨hes, hmsg⟩)

theorem dispatch_undeclared_pair_yields_error_witness :
    (∀ e ∈ [Edge.mk "Green" "Advance" ["Orange"]],
      ¬ (e.source = "Red" ∧ e.message = "Advance"))
    ∧ evalTMatch (fun _ p (_ : Nat) => p + 1) (fun _ _ _ => MValue.error) 7
        (generateDispatchArms "Traffic" [Edge.mk "Green" "Advance" ["Orange"]] "Advance")
        (MValue.state "Red" (0 : Nat)) = MValue.error :=
  ⟨by decide,
   dispatch_undeclared_pair_yields_error (fun _ p _ => p + 1) (fun _ _ _ => MValue.error)
     7 "Traffic" [Edge.mk "Green" "Advance" ["Orange"]] "Advance" "Red" 0 (by decide)⟩

/-- C5: a `transitions!` block that declares two edges for the same
`(state, message)` pair — here `(Green, Advance) => Orange` followed by
`(Green, Advance) => Red` — is not rejected: generation succeeds (modelled
from spec §9, which records that the source has no duplicate-edge guard),
emitting two arms with the same variant pattern, and the generated dispatch
silently takes the first declaration, sending `Green` to `Orange`. -/
theorem duplicate_edge_not_rejected :
    Transitions.generate (Transitions.mk "Traffic"
        [Edge.mk "Green" "Advance" ["Orange"], Edge.mk "Green" "Advance" ["Red"]])
      = Except.ok [("Advance",
          [(Pat.variant "Traffic" "Green", TRhs.wrapSingle "Orange"),
           (Pat.variant "Traffic" "Green", TRhs.wrapSingle "Red"),
           (Pat.wild, TRhs.errorRhs)])]
    ∧ evalTMatch (fun _ p (_ : Nat) => p) (fun _ _ _ => MValue.error) 0
        (generateDispatchArms "Traffic"
          [Edge.mk "Green" "Advance" ["Orange"], Edge.mk "Green" "Advance" ["Red"]]
          "Advance")
        (MValue.state "Green" (5 : Nat))
      = MValue.state "Orange" 5 := ⟨rfl, rfl⟩

/-! ### Claims about the method-projection codegen (C3, C4, C9, C10) -/

/-- C3: for a Getter method spec with DefaultPolicy None (e.g.
`Green => get count: u8`), the generated wrapper method on the enclosing
union returns `Some` of the field reference — the per-state accessor
generated by `generate_state_impl` returns `&self.#ident`, modelled by
`field` — when the active variant is one of the spec's states, and `None`
for every other variant (the Error sink included). -/
theorem getter_wrapper_some_iff_covered {V F : Type} (field : V → F)
    (eE : Expr → F) (machine : String) (method : Method) (ident : String)
    (ty : RType) (s : String) (p : V)
    (hmt : method.method_type = MethodType.get ident ty)
    (_hdv : method.default = DefaultValue.none) :
    (s ∈ method.states →
      evalArms (fun _ v _ => field v) eE
        (Methods.generate_wrapper machine method).arms (MValue.state s p)
      = RVal.someV (field p))
    ∧ (s ∉ method.states →
      evalArms (fun _ v _ => field v) eE
        (Methods.generate_wrapper machine method).arms (MValue.state s p)
      = RVal.noneV)
    ∧ evalArms (fun _ v _ => field v) eE
        (Methods.generate_wrapper machine method).arms MValue.error
      = RVal.noneV := by
  simp only [Methods.generate_wrapper, hmt, Methods.generate_getter]
  refine ⟨fun h => ?_, fun h => ?_, ?_⟩
  · rw [evalArms_mapped_covered _ _ _ _ _ _ _ _ h]; rfl
  · rw [evalArms_mapped_uncovered _ _ _ _ _ _ _ _ h]; rfl
  · rw [evalArms_mapped_error]; rfl

theorem getter_wrapper_some_iff_covered_witness :
    ((Method.mk ["Green"] (MethodType.get "count" (RType.named "u8"))
        DefaultValue.none).method_type = MethodType.get "count" (RType.named "u8"))
    ∧ ((Method.mk ["Green"] (MethodType.get "count" (RType.named "u8"))
        DefaultValue.none).default = DefaultValue.none)
    ∧ ("Green" ∈ ["Green"])
    ∧ evalArms (fun _ (v : Nat) _ => v) (fun _ => 0)
        (Methods.generate_wrapper "Traffic"
          (Method.mk ["Green"] (MethodType.get "count" (RType.named "u8"))
            DefaultValue.none)).arms (MValue.state "Green" 3)
      = RVal.someV 3 :=
  ⟨rfl, rfl, by decide,
   (getter_wrapper_some_iff_covered (fun v => v) (fun _ => 0) "Traffic"
      (Method.mk ["Green"] (MethodType.get "count" (RType.named "u8"))
        DefaultValue.none) "count" (RType.named "u8") "Green" 3 rfl rfl).1
     (by decide)⟩

/-- C9: for every Getter or Setter method spec, the generated wrapper on the
enclosing union always has an Option return type and returns None for
non-covered variants, regardless of the DefaultPolicy parsed for the spec:
`generate_getter` and `generate_setter` never read the method's `default`
field, so a declared `UseTypeDefault`/`UseLiteral` fallback has no effect on
them (only RequiredFn wrappers consult the policy). -/
theorem getter_setter_wrappers_ignore_policy {V R : Type}
    (call : String → V → List String → R) (eE : Expr → R)
    (machine ident : String) (ty : RType) (states : List String)
    (d : DefaultValue) (s : String) (p : V) (hs : s ∉ states) :
    (Methods.generate_wrapper machine (Method.mk states (MethodType.get ident ty) d)
      = Methods.generate_wrapper machine
          (Method.mk states (MethodType.get ident ty) DefaultValue.none))
    ∧ (Methods.generate_wrapper machine
        (Method.mk states (MethodType.get ident ty) d)).output
      = some (RType.option (RType.ref ty))
    ∧ evalArms call eE (Methods.generate_wrapper machine
        (Method.mk states (MethodType.get ident ty) d)).arms (MValue.state s p)
      = RVal.noneV
    ∧ evalArms call eE (Methods.generate_wrapper machine
        (Method.mk states (MethodType.get ident ty) d)).arms MValue.error
      = RVal.noneV
    ∧ (Methods.generate_wrapper machine (Method.mk states (MethodType.set ident ty) d)
      = Methods.generate_wrapper machine
          (Method.mk states (MethodType.set ident ty) DefaultValue.none))
    ∧ (Methods.generate_wrapper machine
        (Method.mk states (MethodType.set ident ty) d)).output
      = some (RType.option (RType.refMut ty))
    ∧ evalArms call eE (Methods.generate_wrapper machine
        (Method.mk states (MethodType.set ident ty) d)).arms (MValue.state s p)
      = RVal.noneV
    ∧ evalArms call eE (Methods.generate_wrapper machine
        (Method.mk states (MethodType.set ident ty) d)).arms MValue.error
      = RVal.noneV := by
  refine ⟨rfl, rfl, ?_, ?_, rfl, rfl, ?_, ?_⟩ <;>
    simp only [Methods.generate_wrapper, Methods.generate_getter, Methods.generate_setter]
  · rw [evalArms_mapped_uncovered _ _ _ _ _ _ _ _ hs]; rfl
  · rw [evalArms_mapped_error]; rfl
  · rw [evalArms_mapped_uncovered _ _ _ _ _ _ _ _ hs]; rfl
  · rw [evalArms_mapped_error]; rfl

theorem getter_setter_wrappers_ignore_policy_witness :
    ("Orange" ∉ ["Green"])
    ∧ evalArms (fun _ (v : Nat) _ => v) (fun _ => 0)
        (Methods.generate_wrapper "Traffic"
          (Method.mk ["Green"] (MethodType.get "count" (RType.named "u8"))
            DefaultValue.default)).arms (MValue.state "Orange" 9)
      = RVal.noneV :=
  ⟨by decide,
   (getter_setter_wrappers_ignore_policy (fun _ v _ => v) (fun _ => 0) "Traffic"
      "count" (RType.named "u8") ["Green"] DefaultValue.default "Orange" 9
      (by decide)).2.2.1⟩

/-- C10: for a RequiredFn method spec whose signature declares no return
type and whose DefaultPolicy is None, the generated wrapper also declares no
return type, yet its match arms are `Some(v.#ident(args))` for every covered
state and the final arm is `_ => None`: evaluation yields Some of the call
result for covered variants and None for every other variant. -/
theorem fn_wrapper_no_return_type {V R : Type}
    (call : String → V → List String → R) (eE : Expr → R) (machine : String)
    (method : Method) (sig : MethodSig) (s : String) (p : V)
    (hmt : method.method_type = MethodType.fn sig)
    (hout : sig.output = Option.none)
    (hdv : method.default = DefaultValue.none) :
    (Methods.generate_wrapper machine method).output = Option.none
    ∧ (Methods.generate_wrapper machine method).arms
      = method.states.map (fun st => (Pat.variant machine st, WRhs.someCall (argsOf sig)))
        ++ [(Pat.wild, WRhs.noneE)]
    ∧ (s ∈ method.states →
        evalArms call eE (Methods.generate_wrapper machine method).arms (MValue.state s p)
        = RVal.someV (call s p (argsOf sig)))
    ∧ (s ∉ method.states →
        evalArms call eE (Methods.generate_wrapper machine method).arms (MValue.state s p)
        = RVal.noneV) := by
  simp only [Methods.generate_wrapper, hmt, Methods.generate_fn, hdv, hout,
    DefaultValue.is_default, Bool.false_eq_true, if_false]
  refine ⟨by trivial, by trivial, fun h => ?_, fun h => ?_⟩
  · rw [evalArms_mapped_covered _ _ _ _ _ _ _ _ h]; rfl
  · rw [evalArms_mapped_uncovered _ _ _ _ _ _ _ _ h]; rfl

theorem fn_wrapper_no_return_type_witness :
    ((Method.mk ["Green"] (MethodType.fn (MethodSig.mk false false false
        Option.none "tick" [FnArg.selfRef, FnArg.captured "n" (RType.named "u8")]
        Option.none)) DefaultValue.none).method_type
      = MethodType.fn (MethodSig.mk false false false Option.none "tick"
          [FnArg.selfRef, FnArg.captured "n" (RType.named "u8")] Option.none))
    ∧ ((MethodSig.mk false false false Option.none "tick"
        [FnArg.selfRef, FnArg.captured "n" (RType.named "u8")]
        Option.none).output = (Option.none : Option RType))
    ∧ ("Green" ∈ ["Green"])
    ∧ evalArms (fun st (v : Nat) args => v + args.length + st.length) (fun _ => 0)
        (Methods.generate_wrapper "Traffic"
          (Method.mk ["Green"] (MethodType.fn (MethodSig.mk false false false
            Option.none "tick" [FnArg.selfRef, FnArg.captured "n" (RType.named "u8")]
            Option.none)) DefaultValue.none)).arms (MValue.state "Green" 4)
      = RVal.someV 10 :=
  ⟨rfl, rfl, by decide,
   (fn_wrapper_no_return_type (fun st v args => v + args.length + st.length) (fun _ => 0)
      "Traffic"
      (Method.mk ["Green"] (MethodType.fn (MethodSig.mk false false false
        Option.none "tick" [FnArg.selfRef, FnArg.captured "n" (RType.named "u8")]
        Option.none)) DefaultValue.none)
      (MethodSig.mk false false false Option.none "tick"
        [FnArg.selfRef, FnArg.captured "n" (RType.named "u8")] Option.none)
      "Green" 4 rfl rfl rfl).2.2.1 (by decide)⟩

/-- C4 counterexample: the claim says every generated wrapper dispatch
method follows the DefaultPolicy for non-covered variants, with
`UseLiteral(expr)` yielding the literal (not an absent result).  But the
entry `Green => default(0) get count: u8` parses to a Getter spec with
policy `UseLiteral(0)`, and its generated wrapper returns the absent value
(`None`) for the non-covered `Orange` variant — the literal never appears in
the generated getter. -/
theorem getter_with_literal_policy_yields_absent :
    parseMethod [Tok.ident "Green", Tok.punct "=>", Tok.ident "default",
        Tok.group Delim.paren [Tok.lit "0"], Tok.ident "get", Tok.ident "count",
        Tok.punct ":", Tok.ident "u8"]
      = (Except.ok (Method.mk ["Green"] (MethodType.get "count" (RType.named "u8"))
          (DefaultValue.val (Expr.mk [Tok.lit "0"]))), [])
    ∧ evalArms (fun _ (v : Nat) _ => v) (fun _ => 0)
        (Methods.generate_wrapper "Traffic"
          (Method.mk ["Green"] (MethodType.get "count" (RType.named "u8"))
            (DefaultValue.val (Expr.mk [Tok.lit "0"])))).arms
        (MValue.state "Orange" 5)
      = RVal.noneV
    ∧ (RVal.noneV : RVal Nat) ≠ RVal.plainV 0 := ⟨rfl, rfl, by simp⟩

/-- C4 (amended): in a generated RequiredFn wrapper dispatch method (the
only wrapper kind that consults the DefaultPolicy), every variant not in the
spec's state set follows the policy — `UseLiteral(expr)` yields the spliced
literal expression, `UseTypeDefault` yields the type's canonical default
value, and `None` yields the absent value, with covered states wrapped as
present; getter and setter wrappers always yield the absent value for
non-covered variants instead. -/
theorem fn_wrapper_follows_default_policy {V R : Type}
    (call : String → V → List String → R) (eE : Expr → R) (machine : String)
    (states : List String) (sig : MethodSig) (e : Expr) (s : String) (p : V) :
    (s ∉ states →
      evalArms call eE (Methods.generate_wrapper machine
          (Method.mk states (MethodType.fn sig) (DefaultValue.val e))).arms
        (MValue.state s p) = RVal.plainV (eE e))
    ∧ (s ∉ states →
      evalArms call eE (Methods.generate_wrapper machine
          (Method.mk states (MethodType.fn sig) DefaultValue.default)).arms
        (MValue.state s p) = RVal.defaultV)
    ∧ (s ∉ states →
      evalArms call eE (Methods.generate_wrapper machine
          (Method.mk states (MethodType.fn sig) DefaultValue.none)).arms
        (MValue.state s p) = RVal.noneV)
    ∧ (s ∈ states →
      evalArms call eE (Methods.generate_wrapper machine
          (Method.mk states (MethodType.fn sig) DefaultValue.none)).arms
        (MValue.state s p) = RVal.someV (call s p (argsOf sig)))
    ∧ evalArms call eE (Methods.generate_wrapper machine
        (Method.mk states (MethodType.fn sig) (DefaultValue.val e))).arms
        MValue.error = RVal.plainV (eE e)
    ∧ evalArms call eE (Methods.generate_wrapper machine
        (Method.mk states (MethodType.fn sig) DefaultValue.default)).arms
        MValue.error = RVal.defaultV
    ∧ evalArms call eE (Methods.generate_wrapper machine
        (Method.mk states (MethodType.fn sig) DefaultValue.none)).arms
        MValue.error = RVal.noneV := by
  simp only [Methods.generate_wrapper, Methods.generate_fn, DefaultValue.is_default,
    if_true, Bool.false_eq_true, if_false]
  refine ⟨fun h => ?_, fun h => ?_, fun h => ?_, fun h => ?_, ?_, ?_, ?_⟩
  · rw [evalArms_mapped_uncovered _ _ _ _ _ _ _ _ h]; rfl
  · rw [evalArms_mapped_uncovered _ _ _ _ _ _ _ _ h]; rfl
  · rw [evalArms_mapped_uncovered _ _ _ _ _ _ _ _ h]; rfl
  · rw [evalArms_mapped_covered _ _ _ _ _ _ _ _ h]; rfl
  · rw [evalArms_mapped_error]; rfl
  · rw [evalArms_mapped_error]; rfl
  · rw [evalArms_mapped_error]; rfl

theorem fn_wrapper_follows_default_policy_witness :
    ("Red" ∉ ["Green"])
    ∧ evalArms (fun _ (v : Nat) _ => v) (fun ex => ex.toks.length)
        (Methods.generate_wrapper "Traffic"
          (Method.mk ["Green"] (MethodType.fn (MethodSig.mk false false false
            Option.none "can_pass" [FnArg.selfRef] (some (RType.named "bool"))))
            (DefaultValue.val (Expr.mk [Tok.lit "0"])))).arms
        (MValue.state "Red" 2)
      = RVal.plainV 1 :=
  ⟨by decide,
   (fn_wrapper_follows_default_policy (fun _ v _ => v) (fun ex => ex.toks.length)
      "Traffic" ["Green"]
      (MethodSig.mk false false false Option.none "can_pass" [FnArg.selfRef]
        (some (RType.named "bool")))
      (Expr.mk [Tok.lit "0"]) "Red" 2).1 (by decide)⟩

/-! ### Claims about the methods-grammar parser (C6, C7, C8) -/

/-- C7: parsing the fallback clause of a methods entry yields exactly
`UseTypeDefault` (`DefaultValue::Default`) when the `default` keyword
appears alone (not followed by a parenthesized group), `UseLiteral(expr)`
(`DefaultValue::Val`) when the keyword is followed by a parenthesized
expression, and `DefaultValue::None` when the clause is absent. -/
theorem default_clause_parse (toks rest inner : List Tok) :
    (isIdentHead "default" toks = false →
      parseDefaultValue toks = (DefaultValue.none, toks))
    ∧ (isParenHead rest = false →
      parseDefaultValue (Tok.ident "default" :: rest) = (DefaultValue.default, rest))
    ∧ (inner ≠ [] →
      parseDefaultValue (Tok.ident "default" :: Tok.group Delim.paren inner :: rest)
        = (DefaultValue.val (Expr.mk inner), rest)) := by
  refine ⟨fun h1 => ?_, fun h2 => ?_, fun h3 => ?_⟩
  · match toks, h1 with
    | [], _ => rfl
    | Tok.ident s :: r, h1 =>
        simp only [isIdentHead] at h1
        simp [parseDefaultValue, parseOptKw, h1]
    | Tok.punct q :: r, _ => rfl
    | Tok.lit q :: r, _ => rfl
    | Tok.group d i :: r, _ => rfl
  · match rest, h2 with
    | [], _ => rfl
    | Tok.ident s :: r, _ => rfl
    | Tok.punct q :: r, _ => rfl
    | Tok.lit q :: r, _ => rfl
    | Tok.group Delim.bracket i :: r, _ => rfl
    | Tok.group Delim.brace i :: r, _ => rfl
  · match inner, h3 with
    | t :: i, _ => rfl

theorem default_clause_parse_witness :
    (isIdentHead "default" [Tok.ident "get"] = false
      ∧ parseDefaultValue [Tok.ident "get"] = (DefaultValue.none, [Tok.ident "get"]))
    ∧ (isParenHead [Tok.ident "fn"] = false
      ∧ parseDefaultValue [Tok.ident "default", Tok.ident "fn"]
          = (DefaultValue.default, [Tok.ident "fn"]))
    ∧ (([Tok.lit "0"] : List Tok) ≠ []
      ∧ parseDefaultValue [Tok.ident "default", Tok.group Delim.paren [Tok.lit "0"]]
          = (DefaultValue.val (Expr.mk [Tok.lit "0"]), [])) :=
  ⟨⟨rfl, (default_clause_parse [Tok.ident "get"] [] []).1 rfl⟩,
   ⟨rfl, (default_clause_parse [] [Tok.ident "fn"] []).2.1 rfl⟩,
   ⟨by simp, (default_clause_parse [] [] [Tok.lit "0"]).2.2 (by simp)⟩⟩

/-- C6 counterexample: the entry `Green => 123` matches neither the
full-signature alternative (`parse_method_sig` fails at the `fn` keyword)
nor the get/set shorthand, yet the parse fails with syn's
"expected identifier" error from the shorthand's first component — not with
"expected `get` or `set`" as the claim requires for every such input. -/
theorem method_entry_neither_alternative_other_error :
    (parse_method_sig [Tok.lit "123"]).1 = Except.error "expected `fn`"
    ∧ parseMethod [Tok.ident "Green", Tok.punct "=>", Tok.lit "123"]
        = (Except.error "expected identifier", [Tok.lit "123"])
    ∧ "expected identifier" ≠ "expected `get` or `set`" := ⟨rfl, rfl, by decide⟩

/-- C6 (amended): when parsing the method kind of a methods-grammar entry,
the full function signature alternative is attempted first — a successful
`parse_method_sig` yields the `Fn` kind directly; the get/set shorthand is
attempted only if signature parsing fails, continuing from the failed
attempt's cursor; and an input whose shorthand components parse as
`Ident Ident : Type` with a head identifier other than `get`/`set` fails
with the fatal error "expected `get` or `set`" — inputs failing both
alternatives in any other way fail with the error of the first shorthand
component that fails to parse. -/
theorem method_kind_parse_order (toks r r0 r1 r2 r3 r4 : List Tok)
    (f : MethodSig) (e0 i name : String) (ty : RType) :
    (parse_method_sig toks = (Except.ok f, r) →
      parseMethodType toks = (Except.ok (MethodType.fn f), r))
    ∧ (parse_method_sig toks = (Except.error e0, r0) →
       parseIdent r0 = (Except.ok i, r1) →
       parseIdent r1 = (Except.ok name, r2) →
       parsePunct ":" r2 = (Except.ok (), r3) →
       parseType r3 = (Except.ok ty, r4) →
       i ≠ "get" → i ≠ "set" →
      parseMethodType toks = (Except.error "expected `get` or `set`", r4))
    ∧ (parse_method_sig toks = (Except.error e0, r0) →
       parseIdent r0 = (Except.ok i, r1) →
       parseIdent r1 = (Except.ok name, r2) →
       parsePunct ":" r2 = (Except.ok (), r3) →
       parseType r3 = (Except.ok ty, r4) →
       i = "get" →
      parseMethodType toks = (Except.ok (MethodType.get name ty), r4)) := by
  refine ⟨fun hs => ?_, fun hs h1 h2 h3 h4 hg hst => ?_, fun hs h1 h2 h3 h4 hg => ?_⟩
  · simp only [parseMethodType, hs]
  · simp only [parseMethodType, hs, h1, h2, h3, h4,
      beq_eq_false_iff_ne.mpr hg, beq_eq_false_iff_ne.mpr hst,
      Bool.false_eq_true, if_false]
  · simp only [parseMethodType, hs, h1, h2, h3, h4, hg]
    simp

theorem method_kind_parse_order_witness :
    (parse_method_sig [Tok.ident "got", Tok.ident "count", Tok.punct ":", Tok.ident "u8"]
      = (Except.error "expected `fn`",
         [Tok.ident "got", Tok.ident "count", Tok.punct ":", Tok.ident "u8"]))
    ∧ ("got" ≠ "get") ∧ ("got" ≠ "set")
    ∧ parseMethodType [Tok.ident "got", Tok.ident "count", Tok.punct ":", Tok.ident "u8"]
        = (Except.error "expected `get` or `set`", []) :=
  ⟨rfl, by decide, by decide,
   (method_kind_parse_order
      [Tok.ident "got", Tok.ident "count", Tok.punct ":", Tok.ident "u8"]
      [] [Tok.ident "got", Tok.ident "count", Tok.punct ":", Tok.ident "u8"]
      [Tok.ident "count", Tok.punct ":", Tok.ident "u8"]
      [Tok.punct ":", Tok.ident "u8"] [Tok.ident "u8"] []
      (MethodSig.mk false false false Option.none "" [] Option.none)
      "expected `fn`" "got" "count" (RType.named "u8")).2.1
     rfl rfl rfl rfl rfl (by decide) (by decide)⟩

/-- C8 counterexample: the methods block `Traffic, [ [] => get count: u8 ]`
— whose single entry gives its state list in the bracketed form with zero
identifiers — parses successfully (`parse_terminated` accepts an empty
list), producing a MethodSpec with an empty state set. -/
theorem methods_block_empty_state_list_parses :
    parseMethodsBlock [Tok.ident "Traffic", Tok.punct ",",
        Tok.group Delim.bracket [Tok.group Delim.bracket [], Tok.punct "=>",
          Tok.ident "get", Tok.ident "count", Tok.punct ":", Tok.ident "u8"]]
      = Except.ok (Methods.mk "Traffic"
          [Method.mk [] (MethodType.get "count" (RType.named "u8"))
            DefaultValue.none]) := rfl

/-- C8 (amended): a successfully parsed methods entry whose state list is
given as a single identifier has exactly that one state — non-emptiness of
the state set is guaranteed by the single-identifier form only; the
bracketed form yields exactly the listed identifiers and can successfully
parse with zero states. -/
theorem single_ident_state_list_one_state (s : String) (r rest : List Tok)
    (m : Method) (hkw : rustKeyword s = false)
    (hp : parseMethod (Tok.ident s :: r) = (Except.ok m, rest)) :
    m.states = [s] := by
  simp only [parseMethod, parseStateList, parseIdent, hkw, Bool.false_eq_true,
    if_false] at hp
  split at hp
  · simp at hp
  · split at hp
    · simp at hp
    · simp only [Prod.mk.injEq, Except.ok.injEq] at hp
      obtain ⟨hm, -⟩ := hp
      rw [← hm]

theorem single_ident_state_list_one_state_witness :
    rustKeyword "Green" = false
    ∧ parseMethod [Tok.ident "Green", Tok.punct "=>", Tok.ident "get",
        Tok.ident "count", Tok.punct ":", Tok.ident "u8"]
      = (Except.ok (Method.mk ["Green"] (MethodType.get "count" (RType.named "u8"))
          DefaultValue.none), [])
    ∧ (Method.mk ["Green"] (MethodType.get "count" (RType.named "u8"))
        DefaultValue.none).states = ["Green"] :=
  ⟨rfl, rfl,
   single_ident_state_list_one_state "Green"
     [Tok.punct "=>", Tok.ident "get", Tok.ident "count", Tok.punct ":", Tok.ident "u8"]
     []
     (Method.mk ["Green"] (MethodType.get "count" (RType.named "u8")) DefaultValue.none)
     rfl rfl⟩

end Machine
